import Mathlib

/-!
Verification of the Reliable Chunked File Transfer Protocol utilities of the
MCU repository.

Each definition below is a shallow embedding of a Python function of the
repository (the source file and function are named in its doc comment).
Byte streams are modelled as `List Nat` (each element a byte value 0..255);
the serial transport's read timeout is modelled by exhausting the list.
UTF-8 decoding with `errors="ignore"` is modelled as the identity on the byte
sequence (exact for ASCII data, which is all the protocol uses).
-/

namespace MCU

/-- The fixed frame magic `CMD_HEADER = b"ESP32_XFER"` shared by all
transfer tools (`transfer_model.py`, `unified_transfer.py`,
`fetch_dataset_from_esp32.py`). -/
def MAGIC : List Nat := [69, 83, 80, 51, 50, 95, 88, 70, 69, 82]

theorem MAGIC_length : MAGIC.length = 10 := by decide

/-- `HEADER_LEN = len(CMD_HEADER)`. -/
def HEADER_LEN : Nat := 10

/-- The last `n` elements of a list: `buffer[-n:]` in Python
(the whole list when it is shorter than `n`). -/
def takeLast (n : Nat) (l : List Nat) : List Nat := l.drop (l.length - n)

/-- `fetch_dataset_from_esp32.read_next_command`, lines 87-103: scan the
stream byte by byte, skipping `\r`/`\n`, keeping the last `HEADER_LEN`
bytes in a sliding buffer; once the buffer equals the magic, return the
next raw byte as the command together with the rest of the stream.
`none` models the code blocking forever on an exhausted stream. -/
def scanMagic (buffer : List Nat) (stream : List Nat) : Option (Nat × List Nat) :=
  match stream with
  | [] => none
  | b :: rest =>
    if b = 13 ∨ b = 10 then scanMagic buffer rest
    else
      let buf' := takeLast HEADER_LEN (buffer ++ [b])
      if buf' = MAGIC then
        match rest with
        | [] => none
        | c :: r => some (c, r)
      else scanMagic buf' rest

/-- Entry point of the decoder scan (initial buffer empty). -/
def read_next_command (stream : List Nat) : Option (Nat × List Nat) :=
  scanMagic [] stream

/-- The bytes of a stream that the scanner actually feeds into its sliding
buffer: everything except `\r` (13) and `\n` (10). -/
def filterNL (l : List Nat) : List Nat :=
  l.filter (fun b => !(b == 13 || b == 10))

theorem filterNL_append (a b : List Nat) :
    filterNL (a ++ b) = filterNL a ++ filterNL b := by
  simp [filterNL]

theorem filterNL_MAGIC : filterNL MAGIC = MAGIC := by decide

-- Arithmetic facts about `takeLast`.

theorem takeLast_append_big (n : Nat) (l m : List Nat) (h : n ≤ m.length) :
    takeLast n (l ++ m) = takeLast n m := by
  unfold takeLast
  have harith : l.length + m.length - n = l.length + (m.length - n) := by omega
  rw [List.length_append, harith, List.drop_append]

theorem takeLast_append_small (n : Nat) (l m : List Nat) (h : m.length ≤ n) :
    takeLast n (l ++ m) = takeLast (n - m.length) l ++ m := by
  unfold takeLast
  have harith : l.length + m.length - n = l.length - (n - m.length) := by omega
  have hle : l.length - (n - m.length) ≤ l.length := by omega
  rw [List.length_append, harith, List.drop_append_of_le_length hle]

theorem takeLast_takeLast (k n : Nat) (l : List Nat) :
    takeLast k (takeLast n l) = takeLast (min k n) l := by
  unfold takeLast
  rw [List.drop_drop, List.length_drop]
  congr 1
  omega

/-- Appending to a buffer only depends on the last `n` bytes kept. -/
theorem takeLast_buffer_step (n : Nat) (l m : List Nat) :
    takeLast n (takeLast n l ++ m) = takeLast n (l ++ m) := by
  rcases le_or_lt n m.length with h | h
  · rw [takeLast_append_big n _ m h, takeLast_append_big n _ m h]
  · rw [takeLast_append_small n _ m (by omega), takeLast_append_small n _ m (by omega),
      takeLast_takeLast]
    congr 2
    omega

theorem takeLast_suffix (n : Nat) (l : List Nat) : takeLast n l <:+ l :=
  List.drop_suffix _ _

/-- The sliding-buffer match condition is exactly "the magic is a suffix
of the bytes scanned so far". -/
theorem takeLast_eq_magic_iff (q : List Nat) :
    takeLast 10 q = MAGIC ↔ MAGIC <:+ q := by
  constructor
  · intro h
    exact h ▸ takeLast_suffix 10 q
  · rintro ⟨t, rfl⟩
    rw [takeLast_append_big 10 t MAGIC (by decide)]
    unfold takeLast
    rw [MAGIC_length]
    simp

/-- One scanning step never grows the remaining stream: termination measure
for the receiver loop. -/
theorem scanMagic_some_length :
    ∀ (s : List Nat) (acc c : _) (r : List Nat),
      scanMagic acc s = some (c, r) → r.length < s.length := by
  intro s
  induction s with
  | nil => intro acc c r h; simp [scanMagic] at h
  | cons b rest ih =>
    intro acc c r h
    rw [scanMagic.eq_def] at h
    simp only at h
    by_cases hnl : b = 13 ∨ b = 10
    · rw [if_pos hnl] at h
      have := ih acc c r h
      simpa using Nat.lt_succ_of_lt this
    · rw [if_neg hnl] at h
      by_cases hb : takeLast HEADER_LEN (acc ++ [b]) = MAGIC
      · rw [if_pos hb] at h
        cases rest with
        | nil => simp at h
        | cons c' r' =>
          simp only [Option.some.injEq, Prod.mk.injEq] at h
          obtain ⟨-, rfl⟩ := h
          simp [Nat.lt_add_of_pos_right]
          omega
      · rw [if_neg hb] at h
        have := ih _ c r h
        simpa using Nat.lt_succ_of_lt this

/-- Walking the scanner over bytes that never complete a magic occurrence
just accumulates them (modulo `\r\n` skipping) into the sliding buffer. -/
theorem scanMagic_walk :
    ∀ (u v hist : List Nat),
      (∀ p, p ≠ [] → p <+: filterNL u → ¬ MAGIC <:+ hist ++ p) →
      scanMagic (takeLast 10 hist) (u ++ v)
        = scanMagic (takeLast 10 (hist ++ filterNL u)) v := by
  intro u
  induction u with
  | nil => intro v hist _; simp [filterNL]
  | cons x u' ih =>
    intro v hist h
    by_cases hnl : x = 13 ∨ x = 10
    · have hfil : filterNL (x :: u') = filterNL u' := by
        rcases hnl with h13 | h10
        · subst h13; simp [filterNL]
        · subst h10; simp [filterNL]
      have hstep : scanMagic (takeLast 10 hist) (x :: (u' ++ v))
          = scanMagic (takeLast 10 hist) (u' ++ v) := by
        rw [scanMagic.eq_def]
        simp only
        rw [if_pos hnl]
      rw [List.cons_append, hstep, hfil]
      exact ih v hist (by rw [← hfil]; exact h)
    · have hfil : filterNL (x :: u') = x :: filterNL u' := by
        have h13 : ¬ x = 13 := fun hx => hnl (Or.inl hx)
        have h10 : ¬ x = 10 := fun hx => hnl (Or.inr hx)
        simp [filterNL, h13, h10]
      have hbuf : takeLast HEADER_LEN (takeLast 10 hist ++ [x])
          = takeLast 10 (hist ++ [x]) := takeLast_buffer_step 10 hist [x]
      have hnomatch : ¬ takeLast 10 (hist ++ [x]) = MAGIC := by
        rw [takeLast_eq_magic_iff]
        exact h [x] (by simp) (by rw [hfil]; exact ⟨filterNL u', rfl⟩)
      have hstep : scanMagic (takeLast 10 hist) (x :: (u' ++ v))
          = scanMagic (takeLast 10 (hist ++ [x])) (u' ++ v) := by
        rw [scanMagic.eq_def]
        simp only
        rw [if_neg hnl]
        simp only [hbuf, if_neg hnomatch]
      have h' : ∀ p, p ≠ [] → p <+: filterNL u' → ¬ MAGIC <:+ (hist ++ [x]) ++ p := by
        intro p _ hp
        have hxp : (x :: p) <+: filterNL (x :: u') := by
          rw [hfil]
          exact ⟨(filterNL u').drop p.length, by
            obtain ⟨r, hr⟩ := hp
            simp only [List.cons_append]
            congr 1
            rw [← hr]; simp⟩
        have := h (x :: p) (by simp) hxp
        simpa [List.append_assoc] using this
      rw [List.cons_append, hstep, ih v (hist ++ [x]) h', hfil, List.append_assoc]
      rfl

/-- At a frame boundary the decoder finds the magic immediately and returns
the following byte as the command. -/
theorem read_next_command_magic (c : Nat) (r : List Nat) :
    read_next_command (MAGIC ++ c :: r) = some (c, r) := rfl

theorem MAGIC_split : MAGIC = [69, 83, 80, 51, 50, 95, 88, 70, 69] ++ [82] := by decide


/--
Claim C9: the decoder scans byte-by-byte for the magic sequence, discarding
every non-matching byte (line terminators `\r`/`\n` included), and returns the
command byte immediately following the first complete occurrence of the magic.
The hypothesis states that the stray prefix `junk` does not itself complete an
earlier occurrence of the magic (in the `\r\n`-filtered view of the stream),
i.e. that the displayed occurrence is the first one.
-/
theorem read_next_command_resync (junk : List Nat) (c : Nat) (rest : List Nat)
    (hfirst : ¬ MAGIC <:+: (filterNL junk ++ MAGIC).dropLast) :
    read_next_command (junk ++ MAGIC ++ c :: rest) = some (c, rest) := by
  have hdrop : (filterNL junk ++ MAGIC).dropLast
      = filterNL junk ++ [69, 83, 80, 51, 50, 95, 88, 70, 69] := by
    rw [MAGIC_split, ← List.append_assoc, List.dropLast_concat]
  have hstream : junk ++ MAGIC ++ c :: rest
      = (junk ++ [69, 83, 80, 51, 50, 95, 88, 70, 69]) ++ (82 :: c :: rest) := by
    rw [MAGIC_split]
    simp [List.append_assoc]
  have hnine : filterNL (junk ++ [69, 83, 80, 51, 50, 95, 88, 70, 69])
      = filterNL junk ++ [69, 83, 80, 51, 50, 95, 88, 70, 69] := by
    rw [filterNL_append]
    congr 1
  have hwalk := scanMagic_walk (junk ++ [69, 83, 80, 51, 50, 95, 88, 70, 69])
      (82 :: c :: rest) [] ?side
  case side =>
    intro p hne hpre
    rintro ⟨t, ht⟩
    apply hfirst
    rw [hdrop]
    obtain ⟨w, hw⟩ := hpre
    rw [hnine] at hw
    simp only [List.nil_append] at ht
    refine ⟨t, w, ?_⟩
    rw [ht, hw]
  have hbase : takeLast 10 ([] : List Nat) = [] := by decide
  have hgoal : read_next_command (junk ++ MAGIC ++ c :: rest)
      = scanMagic (takeLast 10 [])
          ((junk ++ [69, 83, 80, 51, 50, 95, 88, 70, 69]) ++ (82 :: c :: rest)) := by
    rw [read_next_command, hstream, hbase]
  have hmatch : takeLast HEADER_LEN
      (takeLast 10 (filterNL junk ++ [69, 83, 80, 51, 50, 95, 88, 70, 69]) ++ [82])
      = MAGIC := by
    rw [show HEADER_LEN = 10 from rfl, takeLast_buffer_step 10 _ [82], List.append_assoc,
      takeLast_eq_magic_iff]
    exact ⟨filterNL junk, by rw [MAGIC_split]⟩
  rw [hgoal, hwalk]
  simp only [List.nil_append, hnine]
  rw [scanMagic.eq_def]
  simp only
  rw [if_neg (by decide : ¬ ((82 : Nat) = 13 ∨ (82 : Nat) = 10)), if_pos hmatch]

/-!
## Payload reading

`fetch_dataset_from_esp32.read_exact` (lines 57-64) loops on `ser.read(length
- len(data))`; each call of the transport returns between 0 and the requested
number of bytes, and an empty result means the timeout elapsed, which raises
`TimeoutError`.  The transport is modelled by the list `reads` of successive
delivery batches; `·.take` caps a batch at the requested amount, which is the
guarantee `serial.read` gives.
-/

/-- `read_exact(ser, length)` with accumulated `data`: either exactly
`length` bytes are returned or the call fails with `TimeoutError`
(modelled as `Except.error ()`). -/
def read_exact (reads : List (List Nat)) (length : Nat) (data : List Nat) :
    Except Unit (List Nat) :=
  if length ≤ data.length then .ok data
  else
    match reads with
    | [] => .error ()
    | r :: rs =>
      let chunk := r.take (length - data.length)
      if chunk.isEmpty then .error ()
      else read_exact rs length (data ++ chunk)

theorem read_exact_length :
    ∀ (reads : List (List Nat)) (n : Nat) (data : List Nat),
      data.length ≤ n →
      read_exact reads n data = .error () ∨
        ∃ d, read_exact reads n data = .ok d ∧ d.length = n := by
  intro reads
  induction reads with
  | nil =>
    intro n data hle
    rw [read_exact]
    by_cases h : n ≤ data.length
    · right
      exact ⟨data, by rw [if_pos h], by omega⟩
    · left
      rw [if_neg h]
  | cons r rs ih =>
    intro n data hle
    rw [read_exact]
    by_cases h : n ≤ data.length
    · right
      exact ⟨data, by rw [if_pos h], by omega⟩
    · rw [if_neg h]
      by_cases hc : (r.take (n - data.length)).isEmpty
      · left
        simp only [hc, if_pos]
      · simp only [hc, Bool.false_eq_true, if_false]
        apply ih
        have : (r.take (n - data.length)).length ≤ n - data.length :=
          le_trans (List.length_take_le _ _) (le_refl _)
        rw [List.length_append]
        omega

/--
Claim C10: for every requested length `n` and every behaviour of the
transport, `read_exact` either returns exactly `n` bytes or fails with
`TimeoutError`; it never returns a short read.
-/
theorem read_exact_never_short (reads : List (List Nat)) (n : Nat) :
    read_exact reads n [] = .error () ∨
      ∃ d, read_exact reads n [] = .ok d ∧ d.length = n :=
  read_exact_length reads n [] (by simp)

/-!
## In-loop payload reads

Inside `transfer_dataset`'s receive loop the stream is modelled directly as
the list of remaining bytes: `read_exact(ser, n)` succeeds iff at least `n`
bytes remain, consuming them; otherwise the `TimeoutError` propagates.
-/

/-- Stream-level `read_exact`: `n` bytes from the head, or a timeout. -/
def readExactS (n : Nat) (s : List Nat) : Option (List Nat × List Nat) :=
  if s.length < n then none else some (s.take n, s.drop n)

theorem readExactS_append (a t : List Nat) :
    readExactS a.length (a ++ t) = some (a, t) := by
  unfold readExactS
  rw [if_neg (by simp), List.take_left, List.drop_left]

theorem readExactS_some (n : Nat) (s : List Nat) (p : List Nat × List Nat)
    (h : readExactS n s = some p) : p.2.length ≤ s.length := by
  unfold readExactS at h
  by_cases hlt : s.length < n
  · rw [if_pos hlt] at h; cases h
  · rw [if_neg hlt] at h
    cases h
    simp

/-- Little-endian 16-bit encoding, `struct.pack("<H", n)`. -/
def le16 (n : Nat) : List Nat := [n % 256, n / 256 % 256]

/-- Little-endian 32-bit encoding, `struct.pack("<I", n)`. -/
def le32 (n : Nat) : List Nat :=
  [n % 256, n / 256 % 256, n / 65536 % 256, n / 16777216 % 256]

/-- Little-endian 64-bit encoding, `struct.pack("<Q", n)`. -/
def le64 (n : Nat) : List Nat :=
  [n % 256, n / 256 % 256, n / 65536 % 256, n / 16777216 % 256,
   n / 4294967296 % 256, n / 1099511627776 % 256,
   n / 281474976710656 % 256, n / 72057594037927936 % 256]

/-- `struct.unpack("<H", b)[0]`. -/
def decodeLE16 (b : List Nat) : Nat := b.getD 0 0 + 256 * b.getD 1 0

/-- `struct.unpack("<I", b)[0]`. -/
def decodeLE32 (b : List Nat) : Nat :=
  b.getD 0 0 + 256 * b.getD 1 0 + 65536 * b.getD 2 0 + 16777216 * b.getD 3 0

theorem le16_length (n : Nat) : (le16 n).length = 2 := rfl

theorem le32_length (n : Nat) : (le32 n).length = 4 := rfl

theorem le64_length (n : Nat) : (le64 n).length = 8 := rfl

theorem decodeLE16_le16 (n : Nat) (h : n < 65536) : decodeLE16 (le16 n) = n := by
  simp only [decodeLE16, le16, List.getD_cons_zero, List.getD_cons_succ]
  omega

theorem decodeLE32_le32 (n : Nat) (h : n < 4294967296) : decodeLE32 (le32 n) = n := by
  simp only [decodeLE32, le32, List.getD_cons_zero, List.getD_cons_succ]
  omega

theorem readExactS_le16 (n : Nat) (t : List Nat) :
    readExactS 2 (le16 n ++ t) = some (le16 n, t) := by
  have := readExactS_append (le16 n) t
  rwa [le16_length] at this

theorem readExactS_le32 (n : Nat) (t : List Nat) :
    readExactS 4 (le32 n ++ t) = some (le32 n, t) := by
  have := readExactS_append (le32 n) t
  rwa [le32_length] at this

/-!
## Sender-side chunking

`transfer_model.transfer_file` (lines 190-194) and
`transfer_dp_file.transfer_csv_file` (lines 103-107) both iterate
`for offset in range(0, file_size, CHUNK_SIZE)` and slice
`file_data[offset : offset + CHUNK_SIZE]`.
-/

/-- Python `range(start, stop, step)` for a positive `step`, by fuel
(`stop - start` iterations suffice since `start` grows by at least one). -/
def pyRangeAux : Nat → Nat → Nat → Nat → List Nat
  | 0, _, _, _ => []
  | fuel + 1, start, stop, step =>
    if start < stop then start :: pyRangeAux fuel (start + step) stop step else []

def pyRange (start stop step : Nat) : List Nat := pyRangeAux (stop - start) start stop step

/-- The chunk sequence the sender emits: one slice per loop iteration. -/
def fileChunks (fileData : List Nat) (chunkSize : Nat) : List (List Nat) :=
  (pyRange 0 fileData.length chunkSize).map
    (fun offset => (fileData.drop offset).take chunkSize)

theorem pyRangeAux_length (step : Nat) (hstep : 0 < step) :
    ∀ (fuel start stop : Nat), stop - start ≤ fuel →
      (pyRangeAux fuel start stop step).length = (stop - start + step - 1) / step := by
  intro fuel
  induction fuel with
  | zero =>
    intro start stop h
    have h0 : stop - start = 0 := by omega
    rw [pyRangeAux, h0, Nat.div_eq_of_lt (by omega)]
    rfl
  | succ n ih =>
    intro start stop h
    rw [pyRangeAux]
    by_cases hlt : start < stop
    · rw [if_pos hlt, List.length_cons, ih (start + step) stop (by omega)]
      have hd : 0 < stop - start := by omega
      rcases le_or_lt (stop - start) step with hc | hc
      · have h1 : stop - (start + step) = 0 := by omega
        rw [h1, Nat.div_eq_of_lt (by omega)]
        have h2 : stop - start + step - 1 = (stop - start - 1) + step := by omega
        rw [h2, Nat.add_div_right _ hstep, Nat.div_eq_of_lt (by omega)]
      · have h1 : stop - (start + step) + step - 1 = stop - start - 1 := by omega
        have h2 : stop - start + step - 1 = (stop - start - 1) + step := by omega
        rw [h1, h2, Nat.add_div_right _ hstep]
    · rw [if_neg hlt]
      have : stop - start = 0 := by omega
      rw [this, List.length_nil, Nat.div_eq_of_lt (by omega)]

theorem pyRangeAux_get (step : Nat) :
    ∀ (fuel start stop : Nat),
      pyRangeAux fuel start stop step
        = (List.range (pyRangeAux fuel start stop step).length).map
            (fun i => start + i * step) := by
  intro fuel
  induction fuel with
  | zero => intro start stop; rw [pyRangeAux]; simp
  | succ n ih =>
    intro start stop
    rw [pyRangeAux]
    by_cases hlt : start < stop
    · rw [if_pos hlt, List.length_cons, List.range_succ_eq_map, List.map_cons, List.map_map]
      congr 1
      · simp
      · conv_lhs => rw [ih (start + step) stop]
        apply List.map_congr_left
        intro i _
        simp only [Function.comp_apply, Nat.succ_eq_add_one]
        ring
    · rw [if_neg hlt]; simp

theorem pyRangeAux_sum_chunks (data : List Nat) (step : Nat) (hstep : 0 < step) :
    ∀ (fuel start : Nat), data.length - start ≤ fuel →
      ((pyRangeAux fuel start data.length step).map
          (fun offset => ((data.drop offset).take step).length)).sum
        = data.length - start := by
  intro fuel
  induction fuel with
  | zero =>
    intro start h
    rw [pyRangeAux]
    simp only [List.map_nil, List.sum_nil]
    omega
  | succ n ih =>
    intro start h
    rw [pyRangeAux]
    by_cases hlt : start < data.length
    · rw [if_pos hlt]
      simp only [List.map_cons, List.sum_cons]
      rw [ih (start + step) (by omega)]
      rw [List.length_take, List.length_drop]
      omega
    · rw [if_neg hlt]
      simp only [List.map_nil, List.sum_nil]
      omega

/--
Claim C1: for a file of size `S > 0` and chunk size `C > 0` the sender emits
chunks at offsets `0, C, 2C, ...`, each chunk being
`file_data[offset : offset + C]`; there are `ceil(S / C)` of them, each of
length at most `C`, and their lengths sum to `S`.
-/
theorem chunking_correct (data : List Nat) (C : Nat)
    (hS : 0 < data.length) (hC : 0 < C) :
    pyRange 0 data.length C
        = (List.range ((data.length + C - 1) / C)).map (fun i => i * C) ∧
      (fileChunks data C).length = (data.length + C - 1) / C ∧
      (∀ ch ∈ fileChunks data C, ch.length ≤ C) ∧
      ((fileChunks data C).map List.length).sum = data.length := by
  have hlen : (pyRange 0 data.length C).length = (data.length + C - 1) / C := by
    unfold pyRange
    rw [pyRangeAux_length C hC (data.length - 0) 0 data.length (by omega), Nat.sub_zero]
  refine ⟨?_, ?_, ?_, ?_⟩
  · unfold pyRange at hlen ⊢
    rw [pyRangeAux_get C (data.length - 0) 0 data.length, hlen]
    simp
  · rw [fileChunks, List.length_map, hlen]
  · intro ch hch
    rw [fileChunks] at hch
    obtain ⟨offset, -, rfl⟩ := List.mem_map.mp hch
    simp
  · have h := pyRangeAux_sum_chunks data C hC (data.length - 0) 0 (by omega)
    simp only [Nat.sub_zero] at h
    simpa [fileChunks, pyRange, List.map_map, Function.comp_def] using h

set_option maxRecDepth 40000 in
/-- Witness for C1 at the spec's example: a 1000-byte file with chunk size
256 gives chunks at offsets 0, 256, 512, 768 of lengths 256, 256, 256, 232
summing to 1000. -/
theorem chunking_correct_witness :
    (0 < (List.replicate 1000 7).length ∧ 0 < 256) ∧
      (pyRange 0 (List.replicate 1000 7).length 256
          = (List.range (((List.replicate 1000 7).length + 256 - 1) / 256)).map
              (fun i => i * 256) ∧
        (fileChunks (List.replicate 1000 7) 256).length
          = ((List.replicate 1000 7).length + 256 - 1) / 256 ∧
        (∀ ch ∈ fileChunks (List.replicate 1000 7) 256, ch.length ≤ 256) ∧
        ((fileChunks (List.replicate 1000 7) 256).map List.length).sum
          = (List.replicate 1000 7).length) ∧
      pyRange 0 1000 256 = [0, 256, 512, 768] ∧
      ((fileChunks (List.replicate 1000 7) 256).map List.length) = [256, 256, 256, 232] :=
  ⟨⟨by rw [List.length_replicate]; omega, by omega⟩,
    chunking_correct (List.replicate 1000 7) 256 (by rw [List.length_replicate]; omega) (by omega),
    by decide, by decide⟩

/-!
## V2 acknowledgment parsing and the per-chunk retry loop

`transfer_model.transfer_file` lines 196-226 (and identically
`transfer_dp_file.transfer_csv_file` lines 109-134): for each chunk the
sender tries up to `MAX_RETRIES` times; each attempt sends the same frame
and reads one response line (the empty string when the read timed out).
Only a line starting with `"ACK "` whose second whitespace token parses as
the chunk's offset counts as success; `"NACK ..."` lines and anything else
lead to another attempt with the very same frame.  Response lines are the
already `.decode().strip()`ed strings, modelled as `List Char`.
-/

/-- `MAX_RETRIES = 5` in both V2 senders. -/
def MAX_RETRIES : Nat := 5

/-- Split on whitespace, keeping empty groups (helper for `str.split()`). -/
def splitWs : List Char → List (List Char)
  | [] => [[]]
  | c :: t =>
    if c.isWhitespace then [] :: splitWs t
    else
      match splitWs t with
      | [] => [[c]]
      | g :: gs => (c :: g) :: gs

/-- Python `line.split()`: split on whitespace runs, dropping empty tokens. -/
def pySplit (line : List Char) : List (List Char) :=
  (splitWs line).filter (fun t => !t.isEmpty)

/-- Decimal digit run. `none` unless the characters are one or more ASCII
digits. -/
def digitsVal : List Char → Option Nat
  | [] => none
  | l => l.foldl
      (fun acc c =>
        match acc with
        | none => none
        | some n => if c.isDigit then some (n * 10 + (c.toNat - 48)) else none)
      (some 0)

/-- Python `int(token)` on a whitespace-free token: an optional sign
followed by decimal digits (Python's underscore separators and non-ASCII
digits are not modelled; the peer emits plain decimal offsets). -/
def parsePyInt (t : List Char) : Option Int :=
  match t with
  | '-' :: ds => (digitsVal ds).map (fun n => -(n : Int))
  | '+' :: ds => (digitsVal ds).map (fun n => (n : Int))
  | ds => (digitsVal ds).map (fun n => (n : Int))

/-- `int(line.split()[1])` with `except: ack_off = -1`: both a missing
second token (IndexError) and a non-numeric one (ValueError) yield `-1`. -/
def parseAckOffset (line : List Char) : Int :=
  match parsePyInt ((pySplit line).getD 1 []) with
  | some n => n
  | none => -1

/-- The success test of one attempt: `line.startswith("ACK ")` and the
parsed offset equals the chunk's offset. -/
def isMatchingAck (line : List Char) (offset : Nat) : Bool :=
  "ACK ".data.isPrefixOf line && (parseAckOffset line == (offset : Int))

/-- The retry loop for one chunk: `n` remaining attempts, one response line
consumed per attempt (`[].headD [] = []` models a read timeout).  Returns
whether the chunk was acknowledged and the list of frames sent (one copy of
`frame` per attempt). -/
def chunkSendLoop (frame : List Nat) (offset : Nat) :
    Nat → List (List Char) → Bool × List (List Nat)
  | 0, _ => (false, [])
  | n + 1, rs =>
    if isMatchingAck (rs.headD []) offset then (true, [frame])
    else
      let r := chunkSendLoop frame offset n rs.tail
      (r.1, frame :: r.2)

theorem chunkSendLoop_trace (frame : List Nat) (offset : Nat) :
    ∀ (n : Nat) (rs : List (List Char)),
      (chunkSendLoop frame offset n rs).2
        = List.replicate (chunkSendLoop frame offset n rs).2.length frame := by
  intro n
  induction n with
  | zero => intro rs; rfl
  | succ m ih =>
    intro rs
    rw [chunkSendLoop]
    by_cases h : isMatchingAck (rs.headD []) offset
    · rw [if_pos h]
      rfl
    · rw [if_neg h]
      simp only [List.length_cons, List.replicate_succ]
      rw [← ih rs.tail]

theorem chunkSendLoop_success_iff (frame : List Nat) (offset : Nat) :
    ∀ (n : Nat) (rs : List (List Char)),
      (chunkSendLoop frame offset n rs).1 = true
        ↔ ∃ i, i < n ∧ isMatchingAck (rs.getD i []) offset = true := by
  intro n
  induction n with
  | zero =>
    intro rs
    rw [chunkSendLoop]
    simp
  | succ m ih =>
    intro rs
    rw [chunkSendLoop]
    by_cases h : isMatchingAck (rs.headD []) offset
    · rw [if_pos h]
      simp only [true_iff]
      exact ⟨0, by omega, by
        cases rs with
        | nil => simpa using h
        | cons a t => simpa using h⟩
    · rw [if_neg h]
      simp only []
      rw [ih rs.tail]
      constructor
      · rintro ⟨i, hi, hm⟩
        refine ⟨i + 1, by omega, ?_⟩
        cases rs with
        | nil => simpa using hm
        | cons a t => simpa using hm
      · rintro ⟨i, hi, hm⟩
        cases i with
        | zero =>
          exfalso
          apply h
          cases rs with
          | nil => simpa using hm
          | cons a t => simpa using hm
        | succ j =>
          refine ⟨j, by omega, ?_⟩
          cases rs with
          | nil => simpa using hm
          | cons a t => simpa using hm

/--
Claim C2: in the V2 chunk protocol the sender counts a chunk as delivered
exactly when one of its (at most `MAX_RETRIES`) attempts receives a
response line `ACK <o>` whose parsed offset equals the chunk's offset `o`;
every failed attempt (NACK, mismatched or unparsable ACK, or any other
response) leads to resending exactly the same frame: the trace of sent
frames is a list of identical copies of the chunk's frame.
-/
theorem v2_ack_retry (frame : List Nat) (offset : Nat)
    (responses : List (List Char)) :
    ((chunkSendLoop frame offset MAX_RETRIES responses).1 = true
        ↔ ∃ i, i < MAX_RETRIES
            ∧ isMatchingAck (responses.getD i []) offset = true) ∧
      (chunkSendLoop frame offset MAX_RETRIES responses).2
        = List.replicate (chunkSendLoop frame offset MAX_RETRIES responses).2.length frame :=
  ⟨chunkSendLoop_success_iff frame offset MAX_RETRIES responses,
    chunkSendLoop_trace frame offset MAX_RETRIES responses⟩

theorem chunkSendLoop_bounded (frame : List Nat) (offset : Nat) :
    ∀ (n : Nat) (rs : List (List Char)),
      (chunkSendLoop frame offset n rs).2.length ≤ n := by
  intro n
  induction n with
  | zero => intro rs; simp [chunkSendLoop]
  | succ m ih =>
    intro rs
    rw [chunkSendLoop]
    by_cases h : isMatchingAck (rs.headD []) offset
    · rw [if_pos h]; simp
    · rw [if_neg h]
      simpa using ih rs.tail

/-!
## Session sequencing in `transfer_model.main`

`transfer_model.main` lines 393-453: after `READY`, the four per-category
loops (config, node-predictor, log, forest files) each call `transfer_file`
on every file; a failed transfer only prints a message and skips the
`total_success` increment — no loop breaks and nothing returns early — and
control always reaches `send_command(ser, CMD_END_SESSION)`.  The exit code
is 0 iff the ESP32 confirms `OK` and every file transferred.  Each `Bool`
below is the outcome of one `transfer_file` call.
-/

inductive SessionEvent
  | fileAttempt
  | endSessionFrame
deriving DecidableEq

/-- One `for file_path in ...: if transfer_file(...)` loop of `main`. -/
def categoryLoop : List Bool → List SessionEvent × Nat
  | [] => ([], 0)
  | r :: rs =>
    let t := categoryLoop rs
    (SessionEvent.fileAttempt :: t.1, (if r then 1 else 0) + t.2)

/-- The file-transfer phase of `transfer_model.main` followed by the
unconditional `END_SESSION` (lines 437-453): the event trace and the
process exit code. -/
def sessionRun (config predictor log forest : List Bool) (endOk : Bool) :
    List SessionEvent × Nat :=
  ((categoryLoop config).1 ++ (categoryLoop predictor).1 ++ (categoryLoop log).1
      ++ (categoryLoop forest).1 ++ [SessionEvent.endSessionFrame],
   if endOk then
     if (categoryLoop config).2 + (categoryLoop predictor).2 + (categoryLoop log).2
            + (categoryLoop forest).2
          = config.length + predictor.length + log.length + forest.length
     then 0 else 1
   else 1)

theorem categoryLoop_trace (l : List Bool) :
    (categoryLoop l).1 = List.replicate l.length SessionEvent.fileAttempt := by
  induction l with
  | nil => rfl
  | cons r rs ih =>
    rw [categoryLoop]
    simp only [List.length_cons, List.replicate_succ]
    rw [← ih]

theorem categoryLoop_le (l : List Bool) : (categoryLoop l).2 ≤ l.length := by
  induction l with
  | nil => simp [categoryLoop]
  | cons r rs ih =>
    rw [categoryLoop]
    simp only [List.length_cons]
    by_cases h : r = true
    · rw [if_pos h]; omega
    · rw [if_neg h]; omega

theorem categoryLoop_all (l : List Bool) :
    (categoryLoop l).2 = l.length ↔ l.all id = true := by
  induction l with
  | nil => simp [categoryLoop]
  | cons r rs ih =>
    have hle := categoryLoop_le rs
    rw [categoryLoop]
    simp only [List.length_cons, List.all_cons, Bool.and_eq_true, id_eq]
    by_cases h : r = true
    · rw [if_pos h]
      constructor
      · intro he
        exact ⟨h, ih.mp (by omega)⟩
      · rintro ⟨-, ha⟩
        have := ih.mpr ha
        omega
    · rw [if_neg h]
      constructor
      · intro he
        exfalso
        omega
      · rintro ⟨hr, -⟩
        exact absurd hr h

/--
Claim C3 (amended): after `MAX_RETRIES` failed attempts for one chunk the
file transfer fails deterministically — the retry loop sends at most
`MAX_RETRIES` frames, and if no attempt gets a matching ACK the chunk (and
hence the file) fails; the engine then proceeds to the next file *whether
or not the file is critical*: the session trace always runs through every
file of every category and ends with the `END_SESSION` frame, and the
process exit code is 0 iff the session close is confirmed and every file
(the critical forest file included) succeeded — a critical-file failure is
reported through exit code 1, not by aborting the session.
-/
theorem retry_bound_and_session (frame : List Nat) (offset : Nat)
    (responses : List (List Char)) (config predictor log forest : List Bool)
    (endOk : Bool) :
    (chunkSendLoop frame offset MAX_RETRIES responses).2.length ≤ MAX_RETRIES ∧
      ((∀ i, i < MAX_RETRIES → isMatchingAck (responses.getD i []) offset = false) →
        (chunkSendLoop frame offset MAX_RETRIES responses).1 = false) ∧
      (sessionRun config predictor log forest endOk).1
        = List.replicate
            (config.length + predictor.length + log.length + forest.length)
            SessionEvent.fileAttempt ++ [SessionEvent.endSessionFrame] ∧
      ((sessionRun config predictor log forest endOk).2 = 0
        ↔ endOk = true ∧ (config ++ predictor ++ log ++ forest).all id = true) := by
  refine ⟨chunkSendLoop_bounded frame offset MAX_RETRIES responses, ?_, ?_, ?_⟩
  · intro hall
    by_contra hne
    have h1 : (chunkSendLoop frame offset MAX_RETRIES responses).1 = true := by
      cases hx : (chunkSendLoop frame offset MAX_RETRIES responses).1
      · exact absurd hx hne
      · rfl
    obtain ⟨i, hi, hm⟩ := (chunkSendLoop_success_iff frame offset MAX_RETRIES responses).mp h1
    rw [hall i hi] at hm
    cases hm
  · rw [sessionRun]
    simp only [categoryLoop_trace]
    rw [← List.replicate_add, ← List.replicate_add, ← List.replicate_add]
  · rw [sessionRun]
    simp only [List.all_append, Bool.and_eq_true]
    by_cases he : endOk
    · rw [if_pos he]
      by_cases hs : (categoryLoop config).2 + (categoryLoop predictor).2
          + (categoryLoop log).2 + (categoryLoop forest).2
          = config.length + predictor.length + log.length + forest.length
      · rw [if_pos hs]
        have hc := categoryLoop_le config
        have hp := categoryLoop_le predictor
        have hl := categoryLoop_le log
        have hf := categoryLoop_le forest
        simp only [true_iff]
        refine ⟨he, ⟨⟨(categoryLoop_all config).mp (by omega),
          (categoryLoop_all predictor).mp (by omega)⟩,
          (categoryLoop_all log).mp (by omega)⟩,
          (categoryLoop_all forest).mp (by omega)⟩
      · rw [if_neg hs]
        constructor
        · intro h01
          cases h01
        · rintro ⟨-, ⟨⟨hca, hpa⟩, hla⟩, hfa⟩
          exact absurd (by rw [(categoryLoop_all config).mpr hca,
            (categoryLoop_all predictor).mpr hpa, (categoryLoop_all log).mpr hla,
            (categoryLoop_all forest).mpr hfa]) hs
    · rw [if_neg he]
      constructor
      · intro h01
        cases h01
      · rintro ⟨habs, -⟩
        exact absurd habs he

/-- A concrete NACK response line. -/
def nackLine : List Char := "NACK 0 (crc mismatch)".data

/--
Counterexample to claim C3 as stated: in a run where the critical forest
file fails (after its `MAX_RETRIES` attempts were all NACKed),
`transfer_model.main` does *not* abort the session — the trace still
contains the attempts of both files and ends with the `END_SESSION` frame,
and the process merely exits with code 1 after closing the session
normally.
-/
theorem retry_bound_and_session_counterexample :
    chunkSendLoop [1, 2, 3] 0 MAX_RETRIES (List.replicate 5 nackLine)
        = (false, List.replicate 5 [1, 2, 3]) ∧
      sessionRun [true] [] [] [false] true
        = ([SessionEvent.fileAttempt, SessionEvent.fileAttempt,
            SessionEvent.endSessionFrame], 1) := by
  constructor
  · decide
  · decide

/-- Witness for C3 (amended) at concrete inputs. -/
theorem retry_bound_and_session_witness :
    (∀ i, i < MAX_RETRIES
        → isMatchingAck ((List.replicate 5 nackLine).getD i []) 0 = false) ∧
      (chunkSendLoop [1, 2, 3] 0 MAX_RETRIES (List.replicate 5 nackLine)).2.length
          ≤ MAX_RETRIES ∧
      (chunkSendLoop [1, 2, 3] 0 MAX_RETRIES (List.replicate 5 nackLine)).1 = false ∧
      (sessionRun [true] [] [] [false] true).1
        = List.replicate 2 SessionEvent.fileAttempt ++ [SessionEvent.endSessionFrame] ∧
      ((sessionRun [true] [] [] [false] true).2 = 0
        ↔ true = true ∧ ([true] ++ [] ++ [] ++ [false]).all id = true) := by
  have h := retry_bound_and_session [1, 2, 3] 0 (List.replicate 5 nackLine)
    [true] [] [] [false] true
  exact ⟨by decide, h.1, h.2.1 (by decide), h.2.2.1, h.2.2.2⟩

/-- Witness for C9: stray boot-banner bytes `"Hi\r\n"` before a frame do not
disturb decoding; the command byte 0x22 right after the magic is returned. -/
theorem read_next_command_resync_witness :
    (¬ MAGIC <:+: (filterNL [72, 105, 13, 10] ++ MAGIC).dropLast) ∧
      read_next_command ([72, 105, 13, 10] ++ MAGIC ++ 34 :: [1, 2]) = some (34, [1, 2]) :=
  ⟨by decide, read_next_command_resync [72, 105, 13, 10] 34 [1, 2] (by decide)⟩

/-!
## Receiver reassembler: `fetch_dataset_from_esp32.transfer_dataset`

Lines 118-233.  The receive loop and its per-command handlers are embedded
over the byte stream (`List Nat`).  Paths are byte strings; `pathlib.Path`
component splitting, `str.lower()` and the reserved-folder set are modelled
byte-for-byte (ASCII).  The local filesystem is an association list from
path components (relative to the dataset directory) to file contents;
opening with mode `"wb"` truncates, writes append.  `ensure_parent`'s
directory creation has no observable effect in this model.
-/

/-- `path.lstrip("/")`. -/
def lstripSlash (l : List Nat) : List Nat := l.dropWhile (fun b => b == 47)

/-- `dataset.strip("/")`. -/
def stripSlash (l : List Nat) : List Nat :=
  ((lstripSlash l).reverse.dropWhile (fun b => b == 47)).reverse

/-- `_strip_dataset_prefix(path, dataset)` (lines 40-47): drop a leading
`"<dataset>/"` from the slash-trimmed path. -/
def stripDatasetName (path dataset : List Nat) : List Nat :=
  let trimmed := lstripSlash path
  let dsp := stripSlash dataset
  if dsp.isEmpty then trimmed
  else
    let pre := dsp ++ [47]
    if pre.isPrefixOf trimmed then trimmed.drop pre.length else trimmed

/-- Lines 154-156: the relative path actually used — the stripped path,
falling back to `original_path.lstrip("/")` when stripping left nothing. -/
def effectiveRel (dataset path : List Nat) : List Nat :=
  let rel := stripDatasetName path dataset
  if rel.isEmpty then lstripSlash path else rel

/-- Split a byte string on `/` (47), keeping empty groups. -/
def splitSlash : List Nat → List (List Nat)
  | [] => [[]]
  | b :: t =>
    if b = 47 then [] :: splitSlash t
    else
      match splitSlash t with
      | [] => [[b]]
      | g :: gs => (b :: g) :: gs

/-- `pathlib.Path(rel).parts` for a relative path: the slash-separated
components, with empty and `"."` components removed. -/
def pathParts (rel : List Nat) : List (List Nat) :=
  (splitSlash rel).filter (fun q => !(q.isEmpty || q == [46]))

/-- ASCII `str.lower()`. -/
def lowerBytes (l : List Nat) : List Nat :=
  l.map (fun b => if 65 ≤ b ∧ b ≤ 90 then b + 32 else b)

/-- `RESERVED_FOLDERS = {"_sessions", "_session"}` (line 35). -/
def reservedNames : List (List Nat) :=
  ["_sessions".data.map Char.toNat, "_session".data.map Char.toNat]

/-- The `".."` path component. -/
def dotdot : List Nat := [46, 46]

/-- Receiver state during `transfer_dataset`'s loop: the mirrored files
(path components ↦ content), the open output handle, and the counters of
lines 136-144 (plus a count of the size-mismatch warnings printed at line
200). -/
structure RxState where
  fs : List (List (List Nat) × List Nat)
  currentFile : Option (List (List Nat))
  expectedSize : Nat
  receivedBytes : Nat
  filesReceived : Nat
  totalBytes : Nat
  skipping : Bool
  skippedFiles : Nat
  warnings : Nat
deriving DecidableEq

/-- The state at entry of the loop (lines 136-144). -/
def initRxState : RxState :=
  { fs := [], currentFile := none, expectedSize := 0, receivedBytes := 0,
    filesReceived := 0, totalBytes := 0, skipping := false, skippedFiles := 0,
    warnings := 0 }

def lookupFs (fs : List (List (List Nat) × List Nat)) (k : List (List Nat)) :
    Option (List Nat) :=
  match fs with
  | [] => none
  | (k', v) :: t => if k' = k then some v else lookupFs t k

def setFs (fs : List (List (List Nat) × List Nat)) (k : List (List Nat))
    (v : List Nat) : List (List (List Nat) × List Nat) :=
  match fs with
  | [] => [(k, v)]
  | (k', v') :: t => if k' = k then (k', v) :: t else (k', v') :: setFs t k v

/-- `current_file.write(data)`: append to the open file's content. -/
def appendFs (fs : List (List (List Nat) × List Nat)) (k : List (List Nat))
    (d : List Nat) : List (List (List Nat) × List Nat) :=
  setFs fs k ((lookupFs fs k).getD [] ++ d)

/-- How the receive loop ends: `DATASET_DONE` (break), the `ValueError` for
an illegal path, a `TimeoutError` from `read_exact`, or blocking forever in
`read_next_command` on an exhausted stream. -/
inductive RxTermination
  | done
  | illegalPath
  | blocked
  | timeout
deriving DecidableEq

inductive StepOut
  | next (s : List Nat) (st : RxState)
  | halt (t : RxTermination) (st : RxState)
deriving DecidableEq

def CMD_DATASET_FILE_INFO : Nat := 34
def CMD_DATASET_FILE_CHUNK : Nat := 35
def CMD_DATASET_FILE_END : Nat := 36
def CMD_DATASET_DONE : Nat := 37

/-- `CMD_DATASET_FILE_INFO` handler (lines 150-181): read the path and
size, close the previous handle, reject `".."` components
(`raise ValueError`), skip reserved folders, otherwise truncate-open the
target file. -/
def handleInfo (dataset r : List Nat) (st : RxState) : StepOut :=
  match readExactS 2 r with
  | none => .halt .timeout st
  | some (plb, r1) =>
    match readExactS (decodeLE16 plb) r1 with
    | none => .halt .timeout st
    | some (pbytes, r2) =>
      match readExactS 4 r2 with
      | none => .halt .timeout st
      | some (szb, r3) =>
        let size := decodeLE32 szb
        let rel := effectiveRel dataset pbytes
        let st0 := { st with expectedSize := size, currentFile := none }
        let parts := pathParts rel
        if dotdot ∈ parts then .halt .illegalPath st0
        else if parts.any (fun q => reservedNames.contains (lowerBytes q)) then
          .next r3 { st0 with skipping := true, receivedBytes := 0 }
        else
          .next r3 ({ st0 with skipping := false, receivedBytes := 0,
                               fs := setFs st0.fs parts [],
                               currentFile := some parts })

/-- Line 187-188: `if current_file and chunk_len and not skipping_current:
current_file.write(chunk_data)`. -/
def chunkWrite (st : RxState) (clen : Nat) (cdata : List Nat) : RxState :=
  match st.currentFile with
  | some k =>
    if clen ≠ 0 ∧ st.skipping = false
    then { st with fs := appendFs st.fs k cdata } else st
  | none => st

/-- Lines 189-190: `if not skipping_current: received_bytes += chunk_len`. -/
def chunkCount (st : RxState) (clen : Nat) : RxState :=
  if st.skipping = false
  then { st with receivedBytes := st.receivedBytes + clen } else st

/-- `CMD_DATASET_FILE_CHUNK` handler (lines 183-190): read the 2-byte
length and the chunk bytes; write them only when a file is open, the chunk
is non-empty and the current path is not reserved; count them into
`received_bytes` unless the current path is reserved. -/
def handleChunk (r : List Nat) (st : RxState) : StepOut :=
  match readExactS 2 r with
  | none => .halt .timeout st
  | some (hb, r1) =>
    match readExactS (decodeLE16 hb) r1 with
    | none => .halt .timeout st
    | some (cdata, r2) =>
      .next r2 (chunkCount (chunkWrite st (decodeLE16 hb) cdata) (decodeLE16 hb))

/-- The state change of lines 195-207: close the handle, warn on a size
mismatch (non-reserved files only), then count the file as received or
skipped and clear the skip flag. -/
def endStateUpdate (st : RxState) (reported : Nat) : RxState :=
  let st0 := { st with currentFile := none }
  let st1 :=
    if st0.skipping = false ∧ reported ≠ st0.receivedBytes
    then { st0 with warnings := st0.warnings + 1 } else st0
  let st2 :=
    if st1.skipping = false
    then ({ st1 with filesReceived := st1.filesReceived + 1,
                     totalBytes := st1.totalBytes + st1.receivedBytes })
    else { st1 with skippedFiles := st1.skippedFiles + 1 }
  { st2 with skipping := false }

/-- `CMD_DATASET_FILE_END` handler (lines 192-207): read the reported size,
then apply `endStateUpdate`. -/
def handleEnd (r : List Nat) (st : RxState) : StepOut :=
  match readExactS 4 r with
  | none => .halt .timeout st
  | some (szb, r1) => .next r1 (endStateUpdate st (decodeLE32 szb))

/-- `CMD_DATASET_DONE` handler (lines 209-218): read the 12-byte totals
payload and break out of the loop. -/
def handleDone (r : List Nat) (st : RxState) : StepOut :=
  match readExactS 12 r with
  | none => .halt .timeout st
  | some (_, _) => .halt .done st

/-- One iteration of the `while True` loop (lines 148-220): find the next
command frame and dispatch on the command byte; unknown commands are
reported and skipped. -/
def rxStep (dataset s : List Nat) (st : RxState) : StepOut :=
  match read_next_command s with
  | none => .halt .blocked st
  | some (cmd, r) =>
    if cmd = CMD_DATASET_FILE_INFO then handleInfo dataset r st
    else if cmd = CMD_DATASET_FILE_CHUNK then handleChunk r st
    else if cmd = CMD_DATASET_FILE_END then handleEnd r st
    else if cmd = CMD_DATASET_DONE then handleDone r st
    else .next r st

theorem readExactS_some_snd {n : Nat} {s : List Nat} {a b : List Nat}
    (h : readExactS n s = some (a, b)) : b.length ≤ s.length :=
  readExactS_some n s (a, b) h

theorem handleInfo_next_length {dataset r : List Nat} {st : RxState}
    {s' : List Nat} {st' : RxState}
    (h : handleInfo dataset r st = .next s' st') : s'.length ≤ r.length := by
  unfold handleInfo at h
  split at h
  · cases h
  next plb r1 h1 =>
    split at h
    · cases h
    next pbytes r2 h2 =>
      split at h
      · cases h
      next szb r3 h3 =>
        have e1 : r1.length ≤ r.length := readExactS_some_snd h1
        have e2 : r2.length ≤ r1.length := readExactS_some_snd h2
        have e3 : r3.length ≤ r2.length := readExactS_some_snd h3
        dsimp only at h
        split at h
        · cases h
        · split at h
          · injection h with hs hst
            subst hs
            omega
          · injection h with hs hst
            subst hs
            omega

theorem handleChunk_next_length {r : List Nat} {st : RxState}
    {s' : List Nat} {st' : RxState}
    (h : handleChunk r st = .next s' st') : s'.length ≤ r.length := by
  unfold handleChunk at h
  split at h
  · cases h
  next hb r1 h1 =>
    split at h
    · cases h
    next cdata r2 h2 =>
      have e1 : r1.length ≤ r.length := readExactS_some_snd h1
      have e2 : r2.length ≤ r1.length := readExactS_some_snd h2
      injection h with hs hst
      subst hs
      omega

theorem handleEnd_next_length {r : List Nat} {st : RxState}
    {s' : List Nat} {st' : RxState}
    (h : handleEnd r st = .next s' st') : s'.length ≤ r.length := by
  unfold handleEnd at h
  split at h
  · cases h
  next szb r1 h1 =>
    have e1 : r1.length ≤ r.length := readExactS_some_snd h1
    injection h with hs hst
    subst hs
    omega

theorem read_next_command_some_length {s : List Nat} {c : Nat} {r : List Nat}
    (h : read_next_command s = some (c, r)) : r.length < s.length :=
  scanMagic_some_length s [] c r h

theorem rxStep_next_length {dataset s : List Nat} {st : RxState}
    {s' : List Nat} {st' : RxState}
    (h : rxStep dataset s st = .next s' st') : s'.length < s.length := by
  unfold rxStep at h
  split at h
  · cases h
  next cmd r hcmd =>
    have hr : r.length < s.length := read_next_command_some_length hcmd
    split at h
    · have := handleInfo_next_length h
      omega
    · split at h
      · have := handleChunk_next_length h
        omega
      · split at h
        · have := handleEnd_next_length h
          omega
        · split at h
          · unfold handleDone at h
            split at h
            · cases h
            · cases h
          · injection h with hs hst
            subst hs
            omega

/-- The `while True` receive loop of `transfer_dataset` (lines 148-220). -/
def transferLoop (dataset s : List Nat) (st : RxState) : RxTermination × RxState :=
  match h : rxStep dataset s st with
  | .halt t st' => (t, st')
  | .next s' st' => transferLoop dataset s' st'
termination_by s.length
decreasing_by exact rxStep_next_length h

/-- `transfer_dataset` from the start of its receive loop, including the
`finally` clause (lines 221-223) that closes any open handle. -/
def transferDataset (dataset s : List Nat) : RxTermination × RxState :=
  ((transferLoop dataset s initRxState).1,
   { (transferLoop dataset s initRxState).2 with currentFile := none })

/-- `fetch_dataset_from_esp32.main` (lines 236-284): the `ValueError` of an
illegal path and a `TimeoutError` are both caught and turn into exit code 1
(lines 261-269); a completed transfer returns 0; a stream exhausted inside
`read_next_command` blocks forever (no exit). -/
def mainExitCode : RxTermination → Option Nat
  | .done => some 0
  | .illegalPath => some 1
  | .timeout => some 1
  | .blocked => none

theorem transferLoop_halt {dataset s : List Nat} {st : RxState}
    {t : RxTermination} {st' : RxState}
    (h : rxStep dataset s st = .halt t st') :
    transferLoop dataset s st = (t, st') := by
  rw [transferLoop.eq_def, h]

theorem transferLoop_next {dataset s : List Nat} {st : RxState}
    {s' : List Nat} {st' : RxState}
    (h : rxStep dataset s st = .next s' st') :
    transferLoop dataset s st = transferLoop dataset s' st' := by
  rw [transferLoop.eq_def, h]

/-!
## Well-formed frames of the dataset protocol

Frame layouts as the receiver reads them: magic, command byte, then the
command's payload (`DATASET_FILE_INFO`: 2-byte path length + path + 4-byte
size; `DATASET_FILE_CHUNK`: 2-byte length + bytes; `DATASET_FILE_END`:
4-byte reported size; `DATASET_DONE`: 4-byte file count + 8-byte total).
-/

def datasetInfoFrame (path : List Nat) (size : Nat) : List Nat :=
  MAGIC ++ [CMD_DATASET_FILE_INFO] ++ le16 path.length ++ path ++ le32 size

def datasetChunkFrame (data : List Nat) : List Nat :=
  MAGIC ++ [CMD_DATASET_FILE_CHUNK] ++ le16 data.length ++ data

def datasetEndFrame (size : Nat) : List Nat :=
  MAGIC ++ [CMD_DATASET_FILE_END] ++ le32 size

def datasetDoneFrame (files bytes : Nat) : List Nat :=
  MAGIC ++ [CMD_DATASET_DONE] ++ le32 files ++ le64 bytes

theorem read_next_command_infoFrame (p : List Nat) (sz : Nat) (rest : List Nat) :
    read_next_command (datasetInfoFrame p sz ++ rest)
      = some (CMD_DATASET_FILE_INFO, le16 p.length ++ (p ++ (le32 sz ++ rest))) := by
  have hassoc : datasetInfoFrame p sz ++ rest
      = MAGIC ++ CMD_DATASET_FILE_INFO :: (le16 p.length ++ (p ++ (le32 sz ++ rest))) := by
    simp [datasetInfoFrame, List.append_assoc]
  rw [hassoc, read_next_command_magic]

theorem read_next_command_chunkFrame (d : List Nat) (rest : List Nat) :
    read_next_command (datasetChunkFrame d ++ rest)
      = some (CMD_DATASET_FILE_CHUNK, le16 d.length ++ (d ++ rest)) := by
  have hassoc : datasetChunkFrame d ++ rest
      = MAGIC ++ CMD_DATASET_FILE_CHUNK :: (le16 d.length ++ (d ++ rest)) := by
    simp [datasetChunkFrame, List.append_assoc]
  rw [hassoc, read_next_command_magic]

theorem read_next_command_endFrame (sz : Nat) (rest : List Nat) :
    read_next_command (datasetEndFrame sz ++ rest)
      = some (CMD_DATASET_FILE_END, le32 sz ++ rest) := by
  have hassoc : datasetEndFrame sz ++ rest
      = MAGIC ++ CMD_DATASET_FILE_END :: (le32 sz ++ rest) := by
    simp [datasetEndFrame, List.append_assoc]
  rw [hassoc, read_next_command_magic]

theorem read_next_command_doneFrame (files bytes : Nat) (rest : List Nat) :
    read_next_command (datasetDoneFrame files bytes ++ rest)
      = some (CMD_DATASET_DONE, le32 files ++ (le64 bytes ++ rest)) := by
  have hassoc : datasetDoneFrame files bytes ++ rest
      = MAGIC ++ CMD_DATASET_DONE :: (le32 files ++ (le64 bytes ++ rest)) := by
    simp [datasetDoneFrame, List.append_assoc]
  rw [hassoc, read_next_command_magic]

theorem rxStep_infoFrame (dataset p : List Nat) (sz : Nat) (rest : List Nat)
    (st : RxState) (hp : p.length < 65536) (hsz : sz < 4294967296) :
    rxStep dataset (datasetInfoFrame p sz ++ rest) st
      = (if dotdot ∈ pathParts (effectiveRel dataset p) then
           .halt .illegalPath { st with expectedSize := sz, currentFile := none }
         else if (pathParts (effectiveRel dataset p)).any
             (fun q => reservedNames.contains (lowerBytes q)) then
           .next rest ({ st with expectedSize := sz, currentFile := none,
                                 skipping := true, receivedBytes := 0 })
         else
           .next rest ({ st with expectedSize := sz,
                                 skipping := false, receivedBytes := 0,
                                 fs := setFs st.fs (pathParts (effectiveRel dataset p)) [],
                                 currentFile := some (pathParts (effectiveRel dataset p)) })) := by
  unfold rxStep
  rw [read_next_command_infoFrame]
  dsimp only
  rw [if_pos rfl]
  unfold handleInfo
  rw [readExactS_le16]
  dsimp only
  rw [decodeLE16_le16 p.length hp, readExactS_append]
  dsimp only
  rw [readExactS_le32]
  dsimp only
  rw [decodeLE32_le32 sz hsz]

theorem rxStep_chunkFrame (dataset d : List Nat) (rest : List Nat)
    (st : RxState) (hd : d.length < 65536) :
    rxStep dataset (datasetChunkFrame d ++ rest) st
      = .next rest (chunkCount (chunkWrite st d.length d) d.length) := by
  unfold rxStep
  rw [read_next_command_chunkFrame]
  dsimp only
  rw [if_neg (by decide), if_pos rfl]
  unfold handleChunk
  rw [readExactS_le16]
  dsimp only
  rw [decodeLE16_le16 d.length hd, readExactS_append]

theorem rxStep_endFrame (dataset : List Nat) (sz : Nat) (rest : List Nat)
    (st : RxState) (hsz : sz < 4294967296) :
    rxStep dataset (datasetEndFrame sz ++ rest) st
      = .next rest (endStateUpdate st sz) := by
  unfold rxStep
  rw [read_next_command_endFrame]
  dsimp only
  rw [if_neg (by decide), if_neg (by decide), if_pos rfl]
  unfold handleEnd
  rw [readExactS_le32]
  dsimp only
  rw [decodeLE32_le32 sz hsz]

theorem rxStep_doneFrame (dataset : List Nat) (files bytes : Nat) (rest : List Nat)
    (st : RxState) :
    rxStep dataset (datasetDoneFrame files bytes ++ rest) st = .halt .done st := by
  unfold rxStep
  rw [read_next_command_doneFrame]
  dsimp only
  rw [if_neg (by decide), if_neg (by decide), if_neg (by decide), if_pos rfl]
  unfold handleDone
  have h12 : readExactS 12 (le32 files ++ (le64 bytes ++ rest))
      = some ((le32 files ++ (le64 bytes ++ rest)).take 12,
              (le32 files ++ (le64 bytes ++ rest)).drop 12) := by
    unfold readExactS
    have hlen : ¬ (le32 files ++ (le64 bytes ++ rest)).length < 12 := by
      simp [le32, le64]
    rw [if_neg hlen]
  rw [h12]

/-!
## Frame-level behaviour of the receive loop
-/

theorem transferLoop_infoFrame_illegal (dataset p : List Nat) (sz : Nat)
    (rest : List Nat) (st : RxState) (hp : p.length < 65536)
    (hsz : sz < 4294967296) (hdd : dotdot ∈ pathParts (effectiveRel dataset p)) :
    transferLoop dataset (datasetInfoFrame p sz ++ rest) st
      = (.illegalPath, { st with expectedSize := sz, currentFile := none }) := by
  apply transferLoop_halt
  rw [rxStep_infoFrame dataset p sz rest st hp hsz, if_pos hdd]

theorem transferLoop_infoFrame_skip (dataset p : List Nat) (sz : Nat)
    (rest : List Nat) (st : RxState) (hp : p.length < 65536)
    (hsz : sz < 4294967296) (hdd : dotdot ∉ pathParts (effectiveRel dataset p))
    (hres : (pathParts (effectiveRel dataset p)).any
        (fun q => reservedNames.contains (lowerBytes q)) = true) :
    transferLoop dataset (datasetInfoFrame p sz ++ rest) st
      = transferLoop dataset rest
          ({ st with expectedSize := sz, currentFile := none,
                     skipping := true, receivedBytes := 0 }) := by
  apply transferLoop_next
  rw [rxStep_infoFrame dataset p sz rest st hp hsz, if_neg hdd, if_pos hres]

theorem transferLoop_infoFrame_open (dataset p : List Nat) (sz : Nat)
    (rest : List Nat) (st : RxState) (hp : p.length < 65536)
    (hsz : sz < 4294967296) (hdd : dotdot ∉ pathParts (effectiveRel dataset p))
    (hres : ¬ (pathParts (effectiveRel dataset p)).any
        (fun q => reservedNames.contains (lowerBytes q)) = true) :
    transferLoop dataset (datasetInfoFrame p sz ++ rest) st
      = transferLoop dataset rest
          ({ st with expectedSize := sz,
                     skipping := false, receivedBytes := 0,
                     fs := setFs st.fs (pathParts (effectiveRel dataset p)) [],
                     currentFile := some (pathParts (effectiveRel dataset p)) }) := by
  apply transferLoop_next
  rw [rxStep_infoFrame dataset p sz rest st hp hsz, if_neg hdd, if_neg hres]

theorem transferLoop_chunkFrame (dataset d : List Nat) (rest : List Nat)
    (st : RxState) (hd : d.length < 65536) :
    transferLoop dataset (datasetChunkFrame d ++ rest) st
      = transferLoop dataset rest (chunkCount (chunkWrite st d.length d) d.length) := by
  apply transferLoop_next
  exact rxStep_chunkFrame dataset d rest st hd

theorem transferLoop_endFrame (dataset : List Nat) (sz : Nat) (rest : List Nat)
    (st : RxState) (hsz : sz < 4294967296) :
    transferLoop dataset (datasetEndFrame sz ++ rest) st
      = transferLoop dataset rest (endStateUpdate st sz) := by
  apply transferLoop_next
  exact rxStep_endFrame dataset sz rest st hsz

theorem transferLoop_doneFrame (dataset : List Nat) (files bytes : Nat)
    (rest : List Nat) (st : RxState) :
    transferLoop dataset (datasetDoneFrame files bytes ++ rest) st = (.done, st) := by
  apply transferLoop_halt
  exact rxStep_doneFrame dataset files bytes rest st

/-- The concatenated chunk frames of one file. -/
def chunkFramesStream : List (List Nat) → List Nat
  | [] => []
  | d :: ds => datasetChunkFrame d ++ chunkFramesStream ds

theorem chunkWrite_none (st : RxState) (clen : Nat) (cdata : List Nat)
    (h : st.currentFile = none) : chunkWrite st clen cdata = st := by
  unfold chunkWrite
  rw [h]

theorem chunkCount_skip (st : RxState) (clen : Nat)
    (h : st.skipping = true) : chunkCount st clen = st := by
  unfold chunkCount
  rw [h]
  simp

/-- While a reserved path is being skipped (no open handle, `skipping`
set), chunk frames are consumed from the stream without any state change:
the payload is read and discarded. -/
theorem transferLoop_skipChunks (dataset : List Nat) :
    ∀ (datas : List (List Nat)) (t : List Nat) (st : RxState),
      st.currentFile = none → st.skipping = true →
      (∀ d ∈ datas, d.length < 65536) →
      transferLoop dataset (chunkFramesStream datas ++ t) st
        = transferLoop dataset t st := by
  intro datas
  induction datas with
  | nil =>
    intro t st _ _ _
    rw [chunkFramesStream, List.nil_append]
  | cons d ds ih =>
    intro t st hcf hsk hlen
    rw [chunkFramesStream, List.append_assoc,
      transferLoop_chunkFrame dataset d _ st (hlen d (by simp)),
      chunkWrite_none st d.length d hcf, chunkCount_skip st d.length hsk]
    exact ih t st hcf hsk (fun x hx => hlen x (by simp [hx]))

theorem chunkWrite_open (st : RxState) (k : List (List Nat)) (clen : Nat)
    (cdata : List Nat) (hcf : st.currentFile = some k) (hsk : st.skipping = false) :
    chunkWrite st clen cdata
      = { st with fs := if clen ≠ 0 then appendFs st.fs k cdata else st.fs } := by
  unfold chunkWrite
  rw [hcf]
  dsimp only
  by_cases h0 : clen ≠ 0
  · rw [if_pos ⟨h0, hsk⟩, if_pos h0]
  · rw [if_neg (fun hand => h0 hand.1), if_neg h0, ← hcf]

theorem chunkCount_noskip (st : RxState) (clen : Nat) (hsk : st.skipping = false) :
    chunkCount st clen = { st with receivedBytes := st.receivedBytes + clen } := by
  unfold chunkCount
  rw [hsk]
  simp

/-- The filesystem after writing one file's chunk list (empty chunks write
nothing). -/
def chunkFold (fs : List (List (List Nat) × List Nat)) (k : List (List Nat)) :
    List (List Nat) → List (List (List Nat) × List Nat)
  | [] => fs
  | d :: ds => chunkFold (if d.length ≠ 0 then appendFs fs k d else fs) k ds

/-- While a file is open (non-reserved path), each chunk frame appends its
payload to the open file and advances `received_bytes`. -/
theorem transferLoop_writeChunks (dataset : List Nat) (k : List (List Nat)) :
    ∀ (datas : List (List Nat)) (t : List Nat) (st : RxState),
      st.currentFile = some k → st.skipping = false →
      (∀ d ∈ datas, d.length < 65536) →
      transferLoop dataset (chunkFramesStream datas ++ t) st
        = transferLoop dataset t
            ({ st with fs := chunkFold st.fs k datas,
                       receivedBytes := st.receivedBytes + (datas.map List.length).sum }) := by
  intro datas
  induction datas with
  | nil =>
    intro t st hcf hsk _
    rw [chunkFramesStream, List.nil_append]
    congr 1
  | cons d ds ih =>
    intro t st hcf hsk hlen
    rw [chunkFramesStream, List.append_assoc,
      transferLoop_chunkFrame dataset d _ st (hlen d (by simp)),
      chunkWrite_open st k d.length d hcf hsk]
    rw [chunkCount_noskip
      ({ st with fs := if d.length ≠ 0 then appendFs st.fs k d else st.fs }) d.length hsk]
    rw [ih t ({ st with fs := if d.length ≠ 0 then appendFs st.fs k d else st.fs,
                        receivedBytes := st.receivedBytes + d.length }) hcf hsk
      (fun x hx => hlen x (by simp [hx]))]
    dsimp only
    have harith : st.receivedBytes + d.length + (List.map List.length ds).sum
        = st.receivedBytes + (List.map List.length (d :: ds)).sum := by
      simp only [List.map_cons, List.sum_cons]
      omega
    rw [harith, show chunkFold st.fs k (d :: ds)
        = chunkFold (if d.length ≠ 0 then appendFs st.fs k d else st.fs) k ds from rfl]

theorem lookupFs_setFs_self (fs : List (List (List Nat) × List Nat))
    (k : List (List Nat)) (v : List Nat) :
    lookupFs (setFs fs k v) k = some v := by
  induction fs with
  | nil => simp [setFs, lookupFs]
  | cons e t ih =>
    obtain ⟨k', v'⟩ := e
    rw [setFs]
    by_cases h : k' = k
    · rw [if_pos h, lookupFs, if_pos h]
    · rw [if_neg h, lookupFs, if_neg h]
      exact ih

theorem lookupFs_appendFs_self (fs : List (List (List Nat) × List Nat))
    (k : List (List Nat)) (d : List Nat) :
    lookupFs (appendFs fs k d) k = some ((lookupFs fs k).getD [] ++ d) :=
  lookupFs_setFs_self fs k _

theorem chunkFold_lookup (k : List (List Nat)) :
    ∀ (datas : List (List Nat)) (fs : List (List (List Nat) × List Nat)) (c : List Nat),
      lookupFs fs k = some c →
      lookupFs (chunkFold fs k datas) k = some (c ++ datas.flatten) := by
  intro datas
  induction datas with
  | nil =>
    intro fs c h
    rw [chunkFold]
    simpa using h
  | cons d ds ih =>
    intro fs c h
    rw [chunkFold]
    by_cases h0 : d.length ≠ 0
    · rw [if_pos h0]
      have := ih (appendFs fs k d) (c ++ d) (by rw [lookupFs_appendFs_self, h]; rfl)
      rw [this]
      simp
    · rw [if_neg h0]
      have hd : d = [] := by
        rcases d with - | ⟨x, xs⟩
        · rfl
        · exact absurd (by simp) h0
      subst hd
      rw [ih fs c h]
      simp

/--
Claim C4: a `FILE_INFO` whose relative path contains a `".."` component
makes the receiver raise `IllegalPath` (the `ValueError` of line 166); no
file is created, opened or written for that descriptor — the mirrored
filesystem is unchanged and no output handle is open.
-/
theorem illegal_path_rejected (dataset p : List Nat) (sz : Nat) (rest : List Nat)
    (st : RxState) (hp : p.length < 65536) (hsz : sz < 4294967296)
    (hdd : dotdot ∈ pathParts (effectiveRel dataset p)) :
    (transferLoop dataset (datasetInfoFrame p sz ++ rest) st).1 = .illegalPath ∧
      (transferLoop dataset (datasetInfoFrame p sz ++ rest) st).2.fs = st.fs ∧
      (transferLoop dataset (datasetInfoFrame p sz ++ rest) st).2.currentFile = none := by
  rw [transferLoop_infoFrame_illegal dataset p sz rest st hp hsz hdd]
  exact ⟨rfl, rfl, rfl⟩

def gestureName : List Nat := "gesture".data.map Char.toNat

def evilPath : List Nat := "../../etc/passwd".data.map Char.toNat

/-- Witness for C4: the spec's `../../etc/passwd` example. -/
theorem illegal_path_rejected_witness :
    (evilPath.length < 65536 ∧ (10 : Nat) < 4294967296
        ∧ dotdot ∈ pathParts (effectiveRel gestureName evilPath)) ∧
      ((transferLoop gestureName (datasetInfoFrame evilPath 10 ++ []) initRxState).1
          = .illegalPath ∧
        (transferLoop gestureName (datasetInfoFrame evilPath 10 ++ []) initRxState).2.fs
          = initRxState.fs ∧
        (transferLoop gestureName (datasetInfoFrame evilPath 10 ++ []) initRxState).2.currentFile
          = none) :=
  ⟨⟨by decide, by decide, by decide⟩,
    illegal_path_rejected gestureName evilPath 10 [] initRxState
      (by decide) (by decide) (by decide)⟩

/-- Fuel-bounded version of the receive loop, used to evaluate concrete
runs (the loop itself is defined by well-founded recursion). -/
def transferLoopFuel : Nat → List Nat → List Nat → RxState →
    Option (RxTermination × RxState)
  | 0, _, _, _ => none
  | fuel + 1, dataset, s, st =>
    match rxStep dataset s st with
    | .halt t st' => some (t, st')
    | .next s' st' => transferLoopFuel fuel dataset s' st'

theorem transferLoopFuel_sound :
    ∀ (fuel : Nat) (dataset s : List Nat) (st : RxState) (r : RxTermination × RxState),
      transferLoopFuel fuel dataset s st = some r → transferLoop dataset s st = r := by
  intro fuel
  induction fuel with
  | zero => intro dataset s st r h; cases h
  | succ n ih =>
    intro dataset s st r h
    rw [transferLoopFuel] at h
    cases hs : rxStep dataset s st with
    | halt t st' =>
      rw [hs] at h
      cases h
      exact transferLoop_halt hs
    | next s' st' =>
      rw [hs] at h
      rw [transferLoop_next hs]
      exact ih dataset s' st' r h

theorem transferLoop_eq_of_fuel (fuel : Nat) (dataset s : List Nat) (st : RxState)
    (h : (transferLoopFuel fuel dataset s st).isSome = true) :
    transferLoop dataset s st = (transferLoopFuel fuel dataset s st).get h := by
  apply transferLoopFuel_sound fuel
  exact (Option.some_get h).symm

/--
Claim C5 (amended): an `IllegalPath` rejection is fatal to the *whole
session*, not just to that file: the `ValueError` raised on a traversal
path propagates out of the receive loop — independently of whatever frames
follow, none of them is processed — and `main` catches it and exits with
code 1.
-/
theorem illegal_path_aborts_session (dataset p : List Nat) (sz : Nat)
    (rest : List Nat) (st : RxState) (hp : p.length < 65536)
    (hsz : sz < 4294967296) (hdd : dotdot ∈ pathParts (effectiveRel dataset p)) :
    transferLoop dataset (datasetInfoFrame p sz ++ rest) st
        = (.illegalPath, { st with expectedSize := sz, currentFile := none }) ∧
      mainExitCode .illegalPath = some 1 :=
  ⟨transferLoop_infoFrame_illegal dataset p sz rest st hp hsz hdd, rfl⟩

def fileA : List Nat := "a.txt".data.map Char.toNat

def fileB : List Nat := "b.txt".data.map Char.toNat

/-- The frames following the traversal attempt in the counterexample
session: a second, perfectly legal file and the DONE marker. -/
def c5Tail : List Nat :=
  datasetInfoFrame fileB 1
    ++ (chunkFramesStream [[9]] ++ (datasetEndFrame 1 ++ datasetDoneFrame 2 4))

/-- A session of two good files with a traversal attempt between them. -/
def c5Stream : List Nat :=
  datasetInfoFrame fileA 3
    ++ (chunkFramesStream [[1, 2, 3]]
    ++ (datasetEndFrame 3
    ++ (datasetInfoFrame evilPath 10 ++ c5Tail)))

set_option maxRecDepth 100000 in
/--
Counterexample to claim C5 as stated: after file `a.txt` is mirrored, the
traversal path `../../etc/passwd` raises `IllegalPath` and the session
*stops*: the following legal file `b.txt` is never processed (it is absent
from the mirror, only 1 file was received) and `main` exits with code 1 —
the receiver does not go on with the remaining files.
-/
theorem illegal_path_aborts_session_counterexample :
    (transferLoop gestureName c5Stream initRxState).1 = .illegalPath ∧
      (transferLoop gestureName c5Stream initRxState).2.filesReceived = 1 ∧
      lookupFs (transferLoop gestureName c5Stream initRxState).2.fs (pathParts fileB)
          = none ∧
      mainExitCode (transferLoop gestureName c5Stream initRxState).1 = some 1 := by
  have h1 : (transferLoopFuel 40 gestureName c5Stream initRxState).map
      (fun r => (r.1, r.2.filesReceived, lookupFs r.2.fs (pathParts fileB)))
      = some (.illegalPath, 1, none) := by decide
  obtain ⟨r, hr, hproj⟩ := Option.map_eq_some'.mp h1
  rw [transferLoopFuel_sound 40 gestureName c5Stream initRxState r hr]
  obtain ⟨h2, h3, h4⟩ : r.1 = .illegalPath ∧ r.2.filesReceived = 1
      ∧ lookupFs r.2.fs (pathParts fileB) = none := by
    have := hproj
    simp only [Prod.mk.injEq] at this
    exact ⟨this.1, this.2.1, this.2.2⟩
  exact ⟨h2, h3, h4, by rw [h2]; rfl⟩

/-- Witness for C5 (amended) at the same traversal path. -/
theorem illegal_path_aborts_session_witness :
    (evilPath.length < 65536 ∧ (10 : Nat) < 4294967296
        ∧ dotdot ∈ pathParts (effectiveRel gestureName evilPath)) ∧
      (transferLoop gestureName (datasetInfoFrame evilPath 10 ++ c5Tail) initRxState
          = (.illegalPath, { initRxState with expectedSize := 10, currentFile := none }) ∧
        mainExitCode .illegalPath = some 1) :=
  ⟨⟨by decide, by decide, by decide⟩,
    illegal_path_aborts_session gestureName evilPath 10 c5Tail initRxState
      (by decide) (by decide) (by decide)⟩

/--
Claim C6: a `FILE_INFO` whose first path segment matches a reserved name
(`_sessions`/`_session`, case-insensitively) is accepted for bookkeeping
but its payload is discarded: no file is opened or written (the filesystem
field is untouched), the chunk bytes are still read off the stream so that
protocol sequencing stays correct (processing continues exactly at the
frames following the file), the file is counted as skipped, and files
written for other paths are unaffected.  (Per §4.6 the path must first pass
the traversal check, hence the `".."`-free hypothesis.)
-/
theorem reserved_path_skipped (dataset p : List Nat) (sz R : Nat)
    (datas : List (List Nat)) (rest : List Nat) (st : RxState)
    (hp : p.length < 65536) (hsz : sz < 4294967296) (hR : R < 4294967296)
    (hlen : ∀ d ∈ datas, d.length < 65536)
    (hdd : dotdot ∉ pathParts (effectiveRel dataset p))
    (hhead : ∃ h t, pathParts (effectiveRel dataset p) = h :: t
        ∧ reservedNames.contains (lowerBytes h) = true) :
    transferLoop dataset
        (datasetInfoFrame p sz
          ++ (chunkFramesStream datas ++ (datasetEndFrame R ++ rest))) st
      = transferLoop dataset rest
          ({ st with expectedSize := sz, currentFile := none, receivedBytes := 0,
                     skipping := false, skippedFiles := st.skippedFiles + 1 }) := by
  have hres : (pathParts (effectiveRel dataset p)).any
      (fun q => reservedNames.contains (lowerBytes q)) = true := by
    obtain ⟨h, t, hparts, hcont⟩ := hhead
    rw [hparts]
    simp only [List.any_cons, Bool.or_eq_true]
    exact Or.inl hcont
  rw [transferLoop_infoFrame_skip dataset p sz _ st hp hsz hdd hres]
  rw [transferLoop_skipChunks dataset datas _ _ rfl rfl hlen]
  rw [transferLoop_endFrame dataset R rest _ hR]
  rfl

def sessionsPath : List Nat := "_sessions/log.csv".data.map Char.toNat

/-- Witness for C6: a `_sessions/log.csv` descriptor with one 3-byte chunk
is skipped; processing resumes at the following frames with only
`skipped_files` advanced. -/
theorem reserved_path_skipped_witness :
    (sessionsPath.length < 65536 ∧ (3 : Nat) < 4294967296 ∧ (3 : Nat) < 4294967296
        ∧ (∀ d ∈ [[5, 6, 7]], List.length d < 65536)
        ∧ dotdot ∉ pathParts (effectiveRel gestureName sessionsPath)
        ∧ (∃ h t, pathParts (effectiveRel gestureName sessionsPath) = h :: t
            ∧ reservedNames.contains (lowerBytes h) = true)) ∧
      transferLoop gestureName
          (datasetInfoFrame sessionsPath 3
            ++ (chunkFramesStream [[5, 6, 7]]
              ++ (datasetEndFrame 3 ++ datasetDoneFrame 1 3))) initRxState
        = transferLoop gestureName (datasetDoneFrame 1 3)
            ({ initRxState with expectedSize := 3, currentFile := none,
                                receivedBytes := 0, skipping := false,
                                skippedFiles := initRxState.skippedFiles + 1 }) :=
  ⟨⟨by decide, by decide, by decide, by decide, by decide,
      ⟨"_sessions".data.map Char.toNat, ["log.csv".data.map Char.toNat], by decide, by decide⟩⟩,
    reserved_path_skipped gestureName sessionsPath 3 3 [[5, 6, 7]]
      (datasetDoneFrame 1 3) initRxState (by decide) (by decide) (by decide)
      (by decide) (by decide)
      ⟨"_sessions".data.map Char.toNat, ["log.csv".data.map Char.toNat], by decide, by decide⟩⟩

theorem endStateUpdate_mismatch (st : RxState) (R : Nat)
    (hsk : st.skipping = false) (hmis : R ≠ st.receivedBytes) :
    endStateUpdate st R
      = { st with currentFile := none, warnings := st.warnings + 1,
                  filesReceived := st.filesReceived + 1,
                  totalBytes := st.totalBytes + st.receivedBytes,
                  skipping := false } := by
  simp [endStateUpdate, hsk, hmis]

/-- Directory-mirror variant of the `FILE_END` size check: a non-reserved
file whose reported size disagrees with the bytes written yields a printed
warning, yet the file stays on disk with the received content and is
counted in `files_received`; the loop continues with the following
frames. -/
theorem mirror_mismatch_warns (dataset p : List Nat) (sz R : Nat)
    (datas : List (List Nat)) (rest : List Nat) (st : RxState)
    (hp : p.length < 65536) (hsz : sz < 4294967296) (hR : R < 4294967296)
    (hlen : ∀ d ∈ datas, d.length < 65536)
    (hdd : dotdot ∉ pathParts (effectiveRel dataset p))
    (hres : ¬ (pathParts (effectiveRel dataset p)).any
        (fun q => reservedNames.contains (lowerBytes q)) = true)
    (hmis : R ≠ (datas.map List.length).sum) :
    transferLoop dataset
        (datasetInfoFrame p sz
          ++ (chunkFramesStream datas ++ (datasetEndFrame R ++ rest))) st
      = transferLoop dataset rest
          ({ st with expectedSize := sz, currentFile := none,
                     receivedBytes := (datas.map List.length).sum,
                     fs := chunkFold
                       (setFs st.fs (pathParts (effectiveRel dataset p)) [])
                       (pathParts (effectiveRel dataset p)) datas,
                     warnings := st.warnings + 1,
                     filesReceived := st.filesReceived + 1,
                     totalBytes := st.totalBytes + (datas.map List.length).sum,
                     skipping := false }) ∧
      lookupFs
          (chunkFold (setFs st.fs (pathParts (effectiveRel dataset p)) [])
            (pathParts (effectiveRel dataset p)) datas)
          (pathParts (effectiveRel dataset p))
        = some datas.flatten := by
  constructor
  · rw [transferLoop_infoFrame_open dataset p sz _ st hp hsz hdd hres]
    rw [transferLoop_writeChunks dataset (pathParts (effectiveRel dataset p)) datas _
        ({ st with expectedSize := sz, skipping := false, receivedBytes := 0,
                   fs := setFs st.fs (pathParts (effectiveRel dataset p)) [],
                   currentFile := some (pathParts (effectiveRel dataset p)) })
        rfl rfl hlen]
    rw [transferLoop_endFrame dataset R rest _ hR]
    rw [endStateUpdate_mismatch _ R rfl
        (by
          show R ≠ 0 + (datas.map List.length).sum
          rw [Nat.zero_add]
          exact hmis)]
    dsimp only
    simp only [Nat.zero_add]
  · rw [chunkFold_lookup (pathParts (effectiveRel dataset p)) datas
        (setFs st.fs (pathParts (effectiveRel dataset p)) []) []
        (lookupFs_setFs_self st.fs _ [])]
    rw [List.nil_append]

/-!
## Single-binary receiver: `src/receiver.py`

Lines 24-39: after reading the declared size, the script loops
`while received < file_size: chunk = ser.read(512)`; an empty read prints
"Timeout or transfer error" and merely `break`s.  Whatever was written
stays in `received.bin`, the script prints the received/declared counts,
reads the final line and ends — process exit status 0.  `reads` is the
list of successive `ser.read(512)` results (an exhausted list or an empty
delivery is a timeout).
-/

def receiverLoop (reads : List (List Nat)) (fileSize received : Nat)
    (content : List Nat) : Nat × List Nat × Bool :=
  if received < fileSize then
    match reads with
    | [] => (received, content, true)
    | d :: rs =>
      let chunk := d.take 512
      if chunk.isEmpty then (received, content, true)
      else receiverLoop rs fileSize (received + chunk.length) (content ++ chunk)
  else (received, content, false)

/-- The whole script after a valid numeric size line: run the loop, print
the summary, exit with status 0 (there is no abort path).  Result:
(bytes received, content of `received.bin`, exit status). -/
def receiverRun (fileSize : Nat) (reads : List (List Nat)) : Nat × List Nat × Nat :=
  ((receiverLoop reads fileSize 0 []).1, (receiverLoop reads fileSize 0 []).2.1, 0)

theorem receiverLoop_content :
    ∀ (reads : List (List Nat)) (fileSize received : Nat) (content : List Nat),
      content.length = received →
      (receiverLoop reads fileSize received content).2.1.length
        = (receiverLoop reads fileSize received content).1 := by
  intro reads
  induction reads with
  | nil =>
    intro fileSize received content hinv
    rw [receiverLoop]
    by_cases h : received < fileSize
    · rw [if_pos h]
      exact hinv
    · rw [if_neg h]
      exact hinv
  | cons d rs ih =>
    intro fileSize received content hinv
    rw [receiverLoop]
    by_cases h : received < fileSize
    · rw [if_pos h]
      dsimp only
      by_cases hc : (d.take 512).isEmpty
      · rw [if_pos hc]
        exact hinv
      · rw [if_neg hc]
        exact ih fileSize _ _ (by simp [hinv])
    · rw [if_neg h]
      exact hinv

/-- `receiver.py` never aborts: whatever the declared size and the
transport behaviour, the script completes with exit status 0 and keeps the
(possibly partial) `received.bin`, whose length equals the byte count it
reports. -/
theorem receiver_no_abort (fileSize : Nat) (reads : List (List Nat)) :
    (receiverRun fileSize reads).2.2 = 0 ∧
      (receiverRun fileSize reads).2.1.length = (receiverRun fileSize reads).1 :=
  ⟨rfl, receiverLoop_content reads fileSize 0 [] rfl⟩

/--
Claim C7 (amended): on `FILE_END` the directory-mirror receiver compares
the sender-declared total with the bytes written; a mismatch is a printed,
non-fatal warning and the file is still counted (`files_received`
incremented) with its received content kept.  The single-binary receiver
(`receiver.py`), however, has no fatal mismatch handling either: a short
transfer merely ends the read loop; the partial `received.bin` is kept and
the script exits with status 0 — it does not abort.
-/
theorem file_end_mismatch_behaviour :
    (∀ (dataset p : List Nat) (sz R : Nat) (datas : List (List Nat))
        (rest : List Nat) (st : RxState),
      p.length < 65536 → sz < 4294967296 → R < 4294967296 →
      (∀ d ∈ datas, d.length < 65536) →
      dotdot ∉ pathParts (effectiveRel dataset p) →
      ¬ (pathParts (effectiveRel dataset p)).any
          (fun q => reservedNames.contains (lowerBytes q)) = true →
      R ≠ (datas.map List.length).sum →
      transferLoop dataset
          (datasetInfoFrame p sz
            ++ (chunkFramesStream datas ++ (datasetEndFrame R ++ rest))) st
        = transferLoop dataset rest
            ({ st with expectedSize := sz, currentFile := none,
                       receivedBytes := (datas.map List.length).sum,
                       fs := chunkFold
                         (setFs st.fs (pathParts (effectiveRel dataset p)) [])
                         (pathParts (effectiveRel dataset p)) datas,
                       warnings := st.warnings + 1,
                       filesReceived := st.filesReceived + 1,
                       totalBytes := st.totalBytes + (datas.map List.length).sum,
                       skipping := false })) ∧
      (∀ (fileSize : Nat) (reads : List (List Nat)),
        (receiverRun fileSize reads).2.2 = 0 ∧
          (receiverRun fileSize reads).2.1.length = (receiverRun fileSize reads).1) :=
  ⟨fun dataset p sz R datas rest st hp hsz hR hlen hdd hres hmis =>
      (mirror_mismatch_warns dataset p sz R datas rest st hp hsz hR hlen hdd hres hmis).1,
    receiver_no_abort⟩

/--
Counterexample to claim C7 as stated: `receiver.py` with a declared size of
100 bytes receiving a single 10-byte delivery followed by a timeout keeps
the 10-byte partial `received.bin` and exits with status 0 — the mismatch
is not fatal and nothing aborts.
-/
theorem file_end_mismatch_counterexample :
    receiverRun 100 [List.replicate 10 1, []]
        = (10, List.replicate 10 1, 0) ∧
      receiverLoop [List.replicate 10 1, []] 100 0 [] = (10, List.replicate 10 1, true) := by
  constructor
  · decide
  · decide

def goodCsvPath : List Nat := "imgs/a.csv".data.map Char.toNat

/-- Witness for C7 (amended): a mirrored file whose chunks total 2 bytes
against a reported size of 5 is still counted, with a warning; and the
single-binary receiver exits 0 on any input. -/
theorem file_end_mismatch_behaviour_witness :
    (goodCsvPath.length < 65536 ∧ (2 : Nat) < 4294967296 ∧ (5 : Nat) < 4294967296
        ∧ (∀ d ∈ [[8, 9]], List.length d < 65536)
        ∧ dotdot ∉ pathParts (effectiveRel gestureName goodCsvPath)
        ∧ ¬ (pathParts (effectiveRel gestureName goodCsvPath)).any
            (fun q => reservedNames.contains (lowerBytes q)) = true
        ∧ (5 : Nat) ≠ ([[8, 9]].map List.length).sum) ∧
      transferLoop gestureName
          (datasetInfoFrame goodCsvPath 2
            ++ (chunkFramesStream [[8, 9]]
              ++ (datasetEndFrame 5 ++ datasetDoneFrame 1 2))) initRxState
        = transferLoop gestureName (datasetDoneFrame 1 2)
            ({ initRxState with expectedSize := 2, currentFile := none,
                                receivedBytes := ([[8, 9]].map List.length).sum,
                                fs := chunkFold
                                  (setFs initRxState.fs
                                    (pathParts (effectiveRel gestureName goodCsvPath)) [])
                                  (pathParts (effectiveRel gestureName goodCsvPath)) [[8, 9]],
                                warnings := initRxState.warnings + 1,
                                filesReceived := initRxState.filesReceived + 1,
                                totalBytes := initRxState.totalBytes
                                  + ([[8, 9]].map List.length).sum,
                                skipping := false }) ∧
      (receiverRun 7 [[1]]).2.2 = 0 ∧
      (receiverRun 7 [[1]]).2.1.length = (receiverRun 7 [[1]]).1 := by
  refine ⟨⟨by decide, by decide, by decide, by decide, by decide, by decide, by decide⟩, ?_, ?_, ?_⟩
  · exact file_end_mismatch_behaviour.1 gestureName goodCsvPath 2 5 [[8, 9]]
      (datasetDoneFrame 1 2) initRxState (by decide) (by decide) (by decide)
      (by decide) (by decide) (by decide) (by decide)
  · exact (file_end_mismatch_behaviour.2 7 [[1]]).1
  · exact (file_end_mismatch_behaviour.2 7 [[1]]).2

/-!
## V1 sender: `tools/data_transfer/pc_side/unified_transfer.py`

`transfer_file` (lines 73-134): a missing file is skipped; an empty file is
announced with a `FILE_INFO` of size 0 and, once acknowledged, the function
returns success without entering the chunk phase.  A non-empty file is
announced, then its `f.read(CHUNK_SIZE)` chunks are each sent as a
`FILE_CHUNK` frame and acknowledged.  `acks` is the list of
`wait_for_response(ser, RESP_ACK)` outcomes, consumed one per wait.
-/

def CMD_FILE_INFO : Nat := 2

def CMD_FILE_CHUNK : Nat := 3

/-- `CHUNK_SIZE = 1024` (line 37). -/
def UT_CHUNK_SIZE : Nat := 1024

/-- `struct.pack('B', n)`: a single byte; raises `struct.error` (here
`none`) when the value does not fit in one byte. -/
def packB (n : Nat) : Option (List Nat) :=
  if n ≤ 255 then some [n] else none

/-- `CMD_HEADER + pack('B', CMD_FILE_INFO) + pack('B', len(name)) + name +
pack('<I', size)` (lines 84-85 / 95-96): `none` when the name is longer
than 255 bytes, in which case `struct.error` is raised before anything is
sent. -/
def utInfoFrame (name : List Nat) (size : Nat) : Option (List Nat) :=
  (packB name.length).map
    (fun lenByte => MAGIC ++ [CMD_FILE_INFO] ++ lenByte ++ name ++ le32 size)

/-- `CMD_HEADER + pack('B', CMD_FILE_CHUNK) + chunk` (raw bytes, V1). -/
def utChunkFrame (chunk : List Nat) : List Nat :=
  MAGIC ++ [CMD_FILE_CHUNK] ++ chunk

/-- The `f.read(CHUNK_SIZE)` loop slices (lines 104-109). -/
def utChunks (data : List Nat) : List (List Nat) := fileChunks data UT_CHUNK_SIZE

/-- The chunk phase (lines 106-130): send each chunk, wait for ACK, fail on
the first missing ACK.  Returns success and the frames sent. -/
def utChunkLoop : List (List Nat) → List Bool → Bool × List (List Nat)
  | [], _ => (true, [])
  | c :: cs, acks =>
    if acks.headD false then
      let r := utChunkLoop cs acks.tail
      (r.1, utChunkFrame c :: r.2)
    else (false, [utChunkFrame c])

/-- `unified_transfer.transfer_file`: returns (success, frames sent), or
`none` when `struct.pack('B', len(filename_bytes))` raises — `transfer_file`
has no handler, so the `struct.error` propagates to `main`'s generic
`except` (lines 197-199), which prints and `sys.exit(1)`s with nothing
sent. -/
def utTransferFile (fileExists : Bool) (name data : List Nat)
    (acks : List Bool) : Option (Bool × List (List Nat)) :=
  if fileExists = false then some (false, [])
  else if data.length = 0 then
    match utInfoFrame name 0 with
    | none => none
    | some fr => some (if acks.headD false then true else false, [fr])
  else
    match utInfoFrame name data.length with
    | none => none
    | some fr =>
      if acks.headD false then
        let r := utChunkLoop (utChunks data) acks.tail
        some (r.1, fr :: r.2)
      else some (false, [fr])

/--
Claim C8: for a file name that fits the 1-byte length field (≤ 255 bytes —
otherwise `struct.pack` raises before anything is sent), a zero-length
file is announced with a `FILE_INFO` frame carrying size 0 and, after the
receiver's acknowledgment, the transfer completes successfully without
entering the chunk phase: the trace of frames sent is exactly that one
`FILE_INFO` frame — no `FILE_CHUNK` frame — and the transfer is reported
as completed (`True`).
-/
theorem zero_length_no_chunk_phase (name : List Nat) (acks : List Bool)
    (hname : name.length ≤ 255) (hack : acks.headD false = true) :
    utInfoFrame name 0
        = some (MAGIC ++ [CMD_FILE_INFO] ++ [name.length] ++ name ++ le32 0) ∧
      utTransferFile true name [] acks
        = some (true, [MAGIC ++ [CMD_FILE_INFO] ++ [name.length] ++ name ++ le32 0]) := by
  have hfr : utInfoFrame name 0
      = some (MAGIC ++ [CMD_FILE_INFO] ++ [name.length] ++ name ++ le32 0) := by
    unfold utInfoFrame packB
    rw [if_pos hname]
    rfl
  refine ⟨hfr, ?_⟩
  unfold utTransferFile
  rw [if_neg (by simp), if_pos (by simp), hfr, hack]
  rw [if_pos rfl]

/-- Witness for C8 with the 5-byte file name `d.csv` and a first ACK. -/
theorem zero_length_no_chunk_phase_witness :
    (("d.csv".data.map Char.toNat).length ≤ 255 ∧ [true].headD false = true) ∧
      (utInfoFrame ("d.csv".data.map Char.toNat) 0
          = some (MAGIC ++ [CMD_FILE_INFO] ++ [("d.csv".data.map Char.toNat).length]
              ++ "d.csv".data.map Char.toNat ++ le32 0) ∧
        utTransferFile true ("d.csv".data.map Char.toNat) [] [true]
          = some (true, [MAGIC ++ [CMD_FILE_INFO] ++ [("d.csv".data.map Char.toNat).length]
              ++ "d.csv".data.map Char.toNat ++ le32 0])) :=
  ⟨⟨by decide, by decide⟩,
    zero_length_no_chunk_phase ("d.csv".data.map Char.toNat) [true] (by decide) (by decide)⟩
